import Mathlib

/-!
Verification of the PriorityQueue task scheduler (priorityqueue.py).

The Python source is shallowly embedded: the task/agent data model becomes
Lean structures, timestamps become their parse results (`Option ℚ`, seconds;
`none` models an unparsable string), float scores become exact rationals,
and the in-memory dicts of `PriorityQueue` become association lists with
distinct keys.  I/O concerns of the source (JSON persistence, history
logging, CLI) are external collaborators and are not modeled; every
scheduling-relevant computation is translated line by line.
-/

set_option maxHeartbeats 1600000

namespace PriorityQueue

/-- Task status states (class TaskStatus). -/
inductive TaskStatus where
  | PENDING
  | IN_PROGRESS
  | BLOCKED
  | COMPLETED
  | CANCELLED
  | FAILED
deriving DecidableEq

/-- Base priority levels (class TaskPriority); `value` is the numeric enum value. -/
inductive TaskPriority where
  | CRITICAL
  | HIGH
  | MEDIUM
  | LOW
  | BACKLOG
deriving DecidableEq

/-- Numeric value of a priority level (CRITICAL = 1 .. BACKLOG = 5). -/
def TaskPriority.value : TaskPriority → ℕ
  | .CRITICAL => 1
  | .HIGH => 2
  | .MEDIUM => 3
  | .LOW => 4
  | .BACKLOG => 5

/-- Task categories (class TaskCategory); no scheduling effect. -/
inductive TaskCategory where
  | DEVELOPMENT
  | DOCUMENTATION
  | TESTING
  | BUGFIX
  | FEATURE
  | RESEARCH
  | COORDINATION
  | MAINTENANCE
  | URGENT
  | OTHER
deriving DecidableEq

/-- A timestamp string, modeled by its parse result: `some t` when
`datetime.fromisoformat` succeeds and yields time `t` (in seconds),
`none` when parsing raises (the source catches and ignores the error). -/
abbrev Timestr := Option ℚ

/-- A task record (dataclass Task).  The open `metadata` bag carries
arbitrary JSON values that no modeled operation inspects; it is omitted. -/
structure Task where
  id : String
  title : String
  description : String
  status : TaskStatus
  priority : TaskPriority
  category : TaskCategory
  assigned_agent : String
  created_by : String
  created_at : Timestr
  deadline : Option Timestr
  dependencies : List String
  tags : List String
  estimated_duration : Int
  actual_duration : Option Int
  started_at : Option Timestr
  completed_at : Option Timestr
  notes : String
deriving DecidableEq

/-- Task.calculate_score: the multiplicative priority score (lower = more
urgent), translated clause by clause from the source.  `now` is the value
of `datetime.now()` in seconds. -/
def Task.calculate_score (t : Task) (now : ℚ) : ℚ :=
  let score : ℚ := t.priority.value
  -- urgency multiplier based on deadline (unparsable deadline: no multiplier)
  let score :=
    match t.deadline with
    | some (some ddt) =>
      let hours_until : ℚ := (ddt - now) / 3600
      if hours_until < 0 then score * (1/10)
      else if hours_until < 1 then score * (3/10)
      else if hours_until < 4 then score * (5/10)
      else if hours_until < 24 then score * (7/10)
      else if hours_until < 72 then score * (9/10)
      else score
    | _ => score
  -- age factor (unparsable creation time: no multiplier)
  let score :=
    match t.created_at with
    | some created =>
      let age_hours : ℚ := (now - created) / 3600
      let score := if age_hours > 24 then score * (95/100) else score
      if age_hours > 72 then score * (90/100) else score
    | none => score
  -- blocked tasks get a penalty
  if t.status = .BLOCKED then score * 10 else score

/-- Modelled from the spec (§4.1 step 2): the single bracket multiplier the
deadline contributes, 1 when no parsable deadline is set. -/
def deadlineFactor (t : Task) (now : ℚ) : ℚ :=
  match t.deadline with
  | some (some ddt) =>
    let hours_until : ℚ := (ddt - now) / 3600
    if hours_until < 0 then 1/10
    else if hours_until < 1 then 3/10
    else if hours_until < 4 then 5/10
    else if hours_until < 24 then 7/10
    else if hours_until < 72 then 9/10
    else 1
  | _ => 1

/-- Modelled from the spec (§4.1 step 3): the product of the two independent
age multipliers, 1 when the creation time does not parse. -/
def ageFactor (t : Task) (now : ℚ) : ℚ :=
  match t.created_at with
  | some created =>
    let age_hours : ℚ := (now - created) / 3600
    (if age_hours > 24 then 95/100 else 1) * (if age_hours > 72 then 90/100 else 1)
  | none => 1

/-- Modelled from the spec (§4.1 step 4): the blocked-status multiplier. -/
def blockedFactor (t : Task) : ℚ :=
  if t.status = .BLOCKED then 10 else 1

/-- The score decomposes as base priority times the three independent factors. -/
lemma calculate_score_eq (t : Task) (now : ℚ) :
    t.calculate_score now =
      (t.priority.value : ℚ) * deadlineFactor t now * ageFactor t now * blockedFactor t := by
  unfold Task.calculate_score deadlineFactor ageFactor blockedFactor
  rcases t.deadline with _ | (_ | d) <;> rcases t.created_at with _ | c <;>
    dsimp only <;> split_ifs <;> ring

lemma deadlineFactor_pos (t : Task) (now : ℚ) : 0 < deadlineFactor t now := by
  unfold deadlineFactor
  rcases t.deadline with _ | (_ | d) <;> dsimp only <;> (try split_ifs) <;> norm_num

lemma ageFactor_pos (t : Task) (now : ℚ) : 0 < ageFactor t now := by
  unfold ageFactor
  rcases t.created_at with _ | c <;> dsimp only <;> (try split_ifs) <;> norm_num

lemma blockedFactor_pos (t : Task) : 0 < blockedFactor t := by
  unfold blockedFactor
  split_ifs <;> norm_num

lemma priority_value_pos (p : TaskPriority) : 0 < (p.value : ℚ) := by
  cases p <;> norm_num [TaskPriority.value]

lemma priority_value_le_five (p : TaskPriority) : (p.value : ℚ) ≤ 5 := by
  cases p <;> norm_num [TaskPriority.value]

/-- Tracks agent availability and workload (dataclass AgentStatus). -/
structure AgentStatus where
  name : String
  available : Bool
  current_task : Option String
  last_active : Timestr
  completed_today : Nat
  capabilities : List String
  max_concurrent : Nat
deriving DecidableEq

/-- The `self._tasks` dict: an association list keyed by task id, in
insertion order (Python dicts preserve insertion order). -/
abbrev TaskMap := List (String × Task)

/-- The keys of the dict are distinct. -/
abbrev NodupKeys (m : TaskMap) : Prop := (m.map Prod.fst).Nodup

/-- `self._tasks.get(task_id)`. -/
def lookupTask (m : TaskMap) (tid : String) : Option Task :=
  (m.find? (fun p => decide (p.1 = tid))).map Prod.snd

/-- In-place update of the task object stored under `tid` (assignment to a
field of `self._tasks[tid]` in the source). -/
def setTask (m : TaskMap) (tid : String) (t : Task) : TaskMap :=
  m.map (fun p => if p.1 = tid then (p.1, t) else p)

/-- The status of the task stored under `tid`, when present. -/
def statusAt (m : TaskMap) (tid : String) : Option TaskStatus :=
  (lookupTask m tid).map Task.status

/-- One conjunct of the dependency check:
`(dep_task := self._tasks.get(dep_id)) and dep_task.status == COMPLETED`. -/
def isCompletedAt (m : TaskMap) (dep_id : String) : Bool :=
  match lookupTask m dep_id with
  | some dep_task => decide (dep_task.status = .COMPLETED)
  | none => false

/-- `all_deps_complete`: every referenced dependency exists and is COMPLETED. -/
def depsComplete (m : TaskMap) (deps : List String) : Bool :=
  deps.all (fun dep_id => isCompletedAt m dep_id)

/-- The body of the `_update_blocked_status` loop for one task: skip
terminal/in-progress tasks, block on incomplete dependencies, unblock a
BLOCKED task whose dependencies are all complete or absent. -/
def updateBlockedOne (m : TaskMap) (t : Task) : Task :=
  if t.status = .COMPLETED ∨ t.status = .CANCELLED ∨ t.status = .FAILED ∨
      t.status = .IN_PROGRESS then t
  else if t.dependencies ≠ [] then
    if ¬ depsComplete m t.dependencies then {t with status := .BLOCKED}
    else if t.status = .BLOCKED then {t with status := .PENDING}
    else t
  else if t.status = .BLOCKED then {t with status := .PENDING} else t

/-- One iteration of the `_update_blocked_status` loop: the task object under
`tid` is updated in place, reading dependency statuses from the current map. -/
def updateBlockedStep (m : TaskMap) (tid : String) : TaskMap :=
  match lookupTask m tid with
  | some t => setTask m tid (updateBlockedOne m t)
  | none => m

/-- `_update_blocked_status`: iterate over all task ids (the dict's key
sequence is fixed before the loop; statuses are mutated in place as the
loop runs, so later iterations read earlier updates). -/
def update_blocked_status (m : TaskMap) : TaskMap :=
  (m.map Prod.fst).foldl updateBlockedStep m

/-- The same pass applied to every task simultaneously, reading all
dependency statuses from the initial map.  `update_eq_pointwise` shows the
sequential loop computes this, because the loop never changes whether any
task is COMPLETED. -/
def updateBlockedPointwise (m : TaskMap) : TaskMap :=
  m.map (fun p => (p.1, updateBlockedOne m p.2))

/-- The sequential loop with the ids in `done` already processed. -/
def partialUpdate (m : TaskMap) (done : List String) : TaskMap :=
  m.map (fun p => if p.1 ∈ done then (p.1, updateBlockedOne m p.2) else p)

/-- The `self._agents` dict: an association list keyed by agent name. -/
abbrev AgentMap := List (String × AgentStatus)

/-- `self._agents.get(name)` / `name in self._agents`. -/
def lookupAgent (ags : AgentMap) (name : String) : Option AgentStatus :=
  (ags.find? (fun p => decide (p.1 = name))).map Prod.snd

/-- In-place update of the agent record stored under `name`. -/
def setAgent (ags : AgentMap) (name : String) (a : AgentStatus) : AgentMap :=
  ags.map (fun p => if p.1 = name then (p.1, a) else p)

/-- The in-memory state of a PriorityQueue instance: `self._tasks` and
`self._agents`.  The history list and the persistence files are external
collaborators (spec §6) and carry no scheduling state. -/
structure QState where
  tasks : TaskMap
  agents : AgentMap
deriving DecidableEq

/-- The dependency ids of the task stored under `tid` (empty when the id is
absent), i.e. the successor edges followed by `_would_create_cycle`. -/
def succs (m : TaskMap) (tid : String) : List String :=
  match lookupTask m tid with
  | some t => t.dependencies
  | none => []

mutual

/-- The recursive `dfs(current)` closure of `_would_create_cycle`: returns
true as soon as `task_id` is reached; `visited` prevents revisiting.  The
source recursion needs no fuel because `visited` grows; here `fuel` bounds
the recursion depth and is chosen large enough to never run out
(`dfs_complete` relies on `fuel > number of unvisited known ids`). -/
def dfsVisit (m : TaskMap) (task_id : String) :
    Nat → String → List String → Bool × List String
  | 0, _, visited => (false, visited)
  | fuel + 1, current, visited =>
    if current = task_id then (true, visited)
    else if current ∈ visited then (false, visited)
    else
      match lookupTask m current with
      | none => (false, current :: visited)
      | some t => dfsDeps m task_id fuel t.dependencies (current :: visited)
termination_by fuel _ _ => (fuel, 0)

/-- The `for dep in task.dependencies: if dfs(dep): return True` loop. -/
def dfsDeps (m : TaskMap) (task_id : String) :
    Nat → List String → List String → Bool × List String
  | _, [], visited => (false, visited)
  | fuel, dep :: deps, visited =>
    match dfsVisit m task_id fuel dep visited with
    | (true, visited1) => (true, visited1)
    | (false, visited1) => dfsDeps m task_id fuel deps visited1
termination_by fuel l _ => (fuel, l.length + 1)

end

/-- `_would_create_cycle(task_id, new_dep)`: depth-first search from
`new_dep` along dependency edges looking for `task_id`.  The fuel
`m.length + 1` exceeds the number of known ids, so it is never exhausted. -/
def would_create_cycle (m : TaskMap) (task_id new_dep : String) : Bool :=
  (dfsVisit m task_id (m.length + 1) new_dep []).1

/-- The number of known task ids not yet visited: the DFS recursion-depth
measure (`dfs_complete` shows the chosen fuel never runs out). -/
def unvisitedCount (m : TaskMap) (visited : List String) : Nat :=
  ((m.map Prod.fst).filter (fun k => decide (k ∉ visited))).length

/-- Reachability along dependency edges: `Reaches m a b` holds when `b` can
be reached from `a` by following dependency-list entries of tasks in `m`. -/
inductive Reaches (m : TaskMap) : String → String → Prop
  | refl (x : String) : Reaches m x x
  | step {a b c : String} : b ∈ succs m a → Reaches m b c → Reaches m a c

/-- The caller-supplied fields of `add` (the generated uuid and `now` are
passed separately; `metadata` is opaque and omitted as in `Task`). -/
structure AddArgs where
  title : String
  description : String
  priority : TaskPriority
  category : TaskCategory
  assigned_agent : String
  created_by : String
  deadline : Option Timestr
  dependencies : List String
  tags : List String
  estimated_duration : Int
deriving DecidableEq

/-- The optional fields of `update`; `none` means "leave unchanged". -/
structure UpdateArgs where
  title : Option String
  description : Option String
  priority : Option TaskPriority
  category : Option TaskCategory
  assigned_agent : Option String
  deadline : Option Timestr
  tags : Option (List String)
  estimated_duration : Option Int
  notes : Option String
deriving DecidableEq

/-- The field-by-field assignments in the body of `update`. -/
def applyUpdate (t : Task) (u : UpdateArgs) : Task :=
  let t := match u.title with | some v => {t with title := v} | none => t
  let t := match u.description with | some v => {t with description := v} | none => t
  let t := match u.priority with | some v => {t with priority := v} | none => t
  let t := match u.category with | some v => {t with category := v} | none => t
  let t := match u.assigned_agent with | some v => {t with assigned_agent := v} | none => t
  let t := match u.deadline with | some v => {t with deadline := some v} | none => t
  let t := match u.tags with | some v => {t with tags := v} | none => t
  let t := match u.estimated_duration with | some v => {t with estimated_duration := v} | none => t
  match u.notes with | some v => {t with notes := v} | none => t

/-- `self._tasks[task_id] = task`: overwrite when the key exists, else
append (Python dict assignment keeps insertion order). -/
def insertTask (m : TaskMap) (tid : String) (t : Task) : TaskMap :=
  if (lookupTask m tid).isSome then setTask m tid t else m ++ [(tid, t)]

/-- `int(x)` applied to a rational: truncation toward zero. -/
def truncToInt (q : ℚ) : Int :=
  if 0 ≤ q then ⌊q⌋ else -⌊-q⌋

/-- PriorityQueue.add.  The uuid `task_id` is external nondeterminism and is
taken as a parameter; persistence and history logging are external. -/
def add (s : QState) (task_id : String) (a : AddArgs) (now : ℚ) : QState × String :=
  let task : Task :=
    { id := task_id, title := a.title, description := a.description,
      status := .PENDING, priority := a.priority, category := a.category,
      assigned_agent := a.assigned_agent, created_by := a.created_by,
      created_at := some now, deadline := a.deadline,
      dependencies := a.dependencies, tags := a.tags,
      estimated_duration := a.estimated_duration, actual_duration := none,
      started_at := none, completed_at := none, notes := "" }
  let task :=
    if task.dependencies ≠ [] ∧ ¬ depsComplete s.tasks task.dependencies then
      {task with status := .BLOCKED}
    else task
  ({s with tasks := insertTask s.tasks task_id task}, task_id)

/-- PriorityQueue.update. -/
def update (s : QState) (task_id : String) (u : UpdateArgs) : QState × Bool :=
  match lookupTask s.tasks task_id with
  | none => (s, false)
  | some task => ({s with tasks := setTask s.tasks task_id (applyUpdate task u)}, true)

/-- PriorityQueue.delete: removes the entry; dependents' dependency lists
are not cleaned up. -/
def delete (s : QState) (task_id : String) : QState × Bool :=
  if (lookupTask s.tasks task_id).isSome then
    ({s with tasks := s.tasks.filter (fun p => ! decide (p.1 = task_id))}, true)
  else (s, false)

/-- PriorityQueue.start. -/
def start (s : QState) (task_id : String) (agent : Option String) (now : ℚ) :
    QState × Bool :=
  match lookupTask s.tasks task_id with
  | none => (s, false)
  | some task =>
    if task.status = .BLOCKED then (s, false)
    else
      let task := {task with status := .IN_PROGRESS, started_at := some (some now)}
      let task := match agent with
        | some ag => {task with assigned_agent := ag}
        | none => task
      let agents := match agent with
        | some ag =>
          match lookupAgent s.agents ag with
          | some arec => setAgent s.agents ag
              {arec with current_task := some task_id, available := false}
          | none => s.agents
        | none => s.agents
      ({s with tasks := setTask s.tasks task_id task, agents := agents}, true)

/-- PriorityQueue.complete.  The freshly written `completed_at` is `now`'s
timestamp and always parses, so `actual_duration` is computed exactly when
`started_at` is present and parses. -/
def complete (s : QState) (task_id : String) (notes : String) (now : ℚ) :
    QState × Bool :=
  match lookupTask s.tasks task_id with
  | none => (s, false)
  | some task =>
    let task := {task with status := .COMPLETED, completed_at := some (some now)}
    let task := if notes ≠ "" then {task with notes := notes} else task
    let task := match task.started_at with
      | some (some started) =>
        {task with actual_duration := some (truncToInt ((now - started) / 60))}
      | _ => task
    let agents := match lookupAgent s.agents task.assigned_agent with
      | some arec => setAgent s.agents task.assigned_agent
          {arec with current_task := none, available := true,
                     completed_today := arec.completed_today + 1,
                     last_active := some now}
      | none => s.agents
    ({s with tasks := update_blocked_status (setTask s.tasks task_id task),
             agents := agents}, true)

/-- PriorityQueue.fail: frees the agent unconditionally. -/
def fail (s : QState) (task_id : String) (reason : String) (now : ℚ) :
    QState × Bool :=
  match lookupTask s.tasks task_id with
  | none => (s, false)
  | some task =>
    let task := {task with status := .FAILED, completed_at := some (some now)}
    let task := if reason ≠ "" then {task with notes := "FAILED: " ++ reason} else task
    let agents := match lookupAgent s.agents task.assigned_agent with
      | some arec => setAgent s.agents task.assigned_agent
          {arec with current_task := none, available := true}
      | none => s.agents
    ({s with tasks := setTask s.tasks task_id task, agents := agents}, true)

/-- PriorityQueue.cancel.  The source checks `task.status == IN_PROGRESS`
only after the same `task.status` field has been overwritten to CANCELLED;
the check is translated as written. -/
def cancel (s : QState) (task_id : String) (reason : String) : QState × Bool :=
  match lookupTask s.tasks task_id with
  | none => (s, false)
  | some task =>
    let task := {task with status := .CANCELLED}
    let task := if reason ≠ "" then {task with notes := "CANCELLED: " ++ reason} else task
    let agents :=
      if (lookupAgent s.agents task.assigned_agent).isSome ∧ task.status = .IN_PROGRESS then
        match lookupAgent s.agents task.assigned_agent with
        | some arec => setAgent s.agents task.assigned_agent
            {arec with current_task := none, available := true}
        | none => s.agents
      else s.agents
    ({s with tasks := setTask s.tasks task_id task, agents := agents}, true)

/-- PriorityQueue.add_dependency. -/
def add_dependency (s : QState) (task_id depends_on : String) : QState × Bool :=
  match lookupTask s.tasks task_id with
  | none => (s, false)
  | some task =>
    if (lookupTask s.tasks depends_on).isNone then (s, false)
    else if would_create_cycle s.tasks task_id depends_on then (s, false)
    else
      let task :=
        if depends_on ∉ task.dependencies then
          {task with dependencies := task.dependencies ++ [depends_on]}
        else task
      ({s with tasks := update_blocked_status (setTask s.tasks task_id task)}, true)

/-- PriorityQueue.remove_dependency: `list.remove` drops the first
occurrence; the membership guard makes the removal a silent no-op when
absent. -/
def remove_dependency (s : QState) (task_id depends_on : String) : QState × Bool :=
  match lookupTask s.tasks task_id with
  | none => (s, false)
  | some task =>
    let task :=
      if depends_on ∈ task.dependencies then
        {task with dependencies := task.dependencies.erase depends_on}
      else task
    ({s with tasks := update_blocked_status (setTask s.tasks task_id task)}, true)

/-- PriorityQueue.get_next: recompute blocked statuses, collect PENDING
tasks (dict value order), filter by agent if given, stable-sort by score
ascending, return the first.  The source's in-place status recompute is
reflected by reading from `update_blocked_status s.tasks`. -/
def get_next (s : QState) (agent : Option String) (now : ℚ) : Option Task :=
  let m := update_blocked_status s.tasks
  let candidates := (m.map Prod.snd).filter (fun t => decide (t.status = .PENDING))
  if candidates.isEmpty then none
  else
    let candidates := match agent with
      | some ag => candidates.filter
          (fun t : Task => decide (t.assigned_agent = "ANY") || decide (t.assigned_agent = ag))
      | none => candidates
    if candidates.isEmpty then none
    else (candidates.mergeSort
      (fun t1 t2 => decide (t1.calculate_score now ≤ t2.calculate_score now))).head?

/-- Modelled from the spec (§4.4): the candidate set of `get_next` — the
PENDING tasks after the recompute pass, agent-filtered when an agent is
given. -/
def gnCandidates (s : QState) (agent : Option String) : List Task :=
  let pending := ((update_blocked_status s.tasks).map Prod.snd).filter
    (fun t => decide (t.status = .PENDING))
  match agent with
  | some ag => pending.filter
      (fun t => decide (t.assigned_agent = "ANY") || decide (t.assigned_agent = ag))
  | none => pending

/-- The nine mutating TaskStore operations, with their arguments. -/
inductive MutOp where
  | opAdd (newId : String) (args : AddArgs) (now : ℚ)
  | opUpdate (task_id : String) (args : UpdateArgs)
  | opDelete (task_id : String)
  | opStart (task_id : String) (agent : Option String) (now : ℚ)
  | opComplete (task_id : String) (notes : String) (now : ℚ)
  | opFail (task_id : String) (reason : String) (now : ℚ)
  | opCancel (task_id : String) (reason : String)
  | opAddDependency (task_id depends_on : String)
  | opRemoveDependency (task_id depends_on : String)

/-- Apply a mutating operation to the store state. -/
def MutOp.apply : MutOp → QState → QState
  | .opAdd newId args now, s => (add s newId args now).1
  | .opUpdate task_id args, s => (update s task_id args).1
  | .opDelete task_id, s => (delete s task_id).1
  | .opStart task_id agent now, s => (start s task_id agent now).1
  | .opComplete task_id notes now, s => (complete s task_id notes now).1
  | .opFail task_id reason now, s => (fail s task_id reason now).1
  | .opCancel task_id reason, s => (cancel s task_id reason).1
  | .opAddDependency task_id depends_on, s => (add_dependency s task_id depends_on).1
  | .opRemoveDependency task_id depends_on, s => (remove_dependency s task_id depends_on).1

/-- The task id an operation is about (for `add`, the id of the new task). -/
def MutOp.argTask : MutOp → String
  | .opAdd newId _ _ => newId
  | .opUpdate task_id _ => task_id
  | .opDelete task_id => task_id
  | .opStart task_id _ _ => task_id
  | .opComplete task_id _ _ => task_id
  | .opFail task_id _ _ => task_id
  | .opCancel task_id _ => task_id
  | .opAddDependency task_id _ => task_id
  | .opRemoveDependency task_id _ => task_id

/-- Whether the operation is a `complete`. -/
def MutOp.isCompleteOp : MutOp → Bool
  | .opComplete _ _ _ => true
  | _ => false

/-- A store state in which every BLOCKED task genuinely waits on a nonempty,
not-all-completed dependency list — exactly what a `recompute_blocked_status`
pass establishes.  States loaded from hand-edited persistence files need not
satisfy this. -/
abbrev WellBlocked (m : TaskMap) : Prop :=
  ∀ p ∈ m, (p : String × Task).2.status = .BLOCKED →
    p.2.dependencies ≠ [] ∧ depsComplete m p.2.dependencies = false

/-- A sample task used to instantiate theorems at concrete inputs. -/
def baseTask : Task :=
  { id := "t0", title := "", description := "", status := .PENDING,
    priority := .MEDIUM, category := .OTHER, assigned_agent := "ANY",
    created_by := "", created_at := some 0, deadline := none,
    dependencies := [], tags := [], estimated_duration := 30,
    actual_duration := none, started_at := none, completed_at := none,
    notes := "" }

/-- A sample agent record: busy on a task other than the ones completed or
cancelled in the witnesses. -/
def baseAgent : AgentStatus :=
  { name := "FORGE", available := false, current_task := some "zz",
    last_active := some 0, completed_today := 3, capabilities := [],
    max_concurrent := 1 }

/-- Concrete state for the selector witness: a PENDING task assigned to
ATLAS and a PENDING task assigned to ANY. -/
def sampleState2 : QState :=
  { tasks := [("t1", {baseTask with id := "t1", assigned_agent := "ATLAS"}),
              ("t2", {baseTask with id := "t2", assigned_agent := "ANY"})],
    agents := [] }

/-- Concrete state violating `WellBlocked`: task a is BLOCKED with an empty
dependency list (as can be loaded from persistence). -/
def sampleState3 : QState :=
  { tasks := [("a", {baseTask with id := "a", status := .BLOCKED}),
              ("b", {baseTask with id := "b"})],
    agents := [] }

/-- Concrete well-blocked state: task a is BLOCKED on the incomplete task b;
task c is independent. -/
def sampleState3w : QState :=
  { tasks := [("a", {baseTask with id := "a", status := .BLOCKED, dependencies := ["b"]}),
              ("b", {baseTask with id := "b"}),
              ("c", {baseTask with id := "c"})],
    agents := [] }

/-- Concrete state for the cancel witness: an IN_PROGRESS task whose agent
is registered and busy. -/
def sampleTask4 : Task :=
  {baseTask with id := "t1", assigned_agent := "FORGE", status := .IN_PROGRESS}

def sampleState4 : QState :=
  { tasks := [("t1", sampleTask4)],
    agents := [("FORGE", {baseAgent with current_task := some "t1"})] }

/-- Concrete state for the cycle witness: a depends on b. -/
def sampleState5 : QState :=
  { tasks := [("a", {baseTask with id := "a", status := .BLOCKED, dependencies := ["b"]}),
              ("b", {baseTask with id := "b"})],
    agents := [] }

/-- Concrete state for the complete witness: a PENDING (never started) task
whose agent record points at a different task. -/
def sampleState10 : QState :=
  { tasks := [("t1", {baseTask with id := "t1", assigned_agent := "FORGE"})],
    agents := [("FORGE", baseAgent)] }

/-- Concrete map for the dangling-dependency witness: task a references a
dependency id that is not in the task set. -/
def sampleTask7 : Task :=
  {baseTask with id := "a", dependencies := ["gone"]}

def sampleState7 : QState :=
  { tasks := [("a", sampleTask7)], agents := [] }

/-- Two maps that agree on which ids hold a COMPLETED task. -/
def agreeCompleted (m m2 : TaskMap) : Prop :=
  ∀ tid, isCompletedAt m tid = isCompletedAt m2 tid

lemma depsComplete_congr {m m2 : TaskMap} (h : agreeCompleted m m2) (deps : List String) :
    depsComplete m deps = depsComplete m2 deps := by
  unfold depsComplete
  induction deps with
  | nil => rfl
  | cons d ds ih => simp only [List.all_cons, ih, h d]

lemma updateBlockedOne_congr {m m2 : TaskMap} (h : agreeCompleted m m2) (t : Task) :
    updateBlockedOne m t = updateBlockedOne m2 t := by
  unfold updateBlockedOne
  rw [depsComplete_congr h]

/-- The per-task pass never changes whether a task is COMPLETED. -/
lemma updateBlockedOne_completed (m : TaskMap) (t : Task) :
    (updateBlockedOne m t).status = .COMPLETED ↔ t.status = .COMPLETED := by
  unfold updateBlockedOne
  split_ifs with h1 h2 h3 h4 <;> simp_all

lemma lookupTask_cons (p : String × Task) (l : TaskMap) (tid : String) :
    lookupTask (p :: l) tid = if p.1 = tid then some p.2 else lookupTask l tid := by
  unfold lookupTask
  by_cases h : p.1 = tid <;> simp [List.find?, h]

lemma lookupTask_mapKeyVal (g : String → Task → Task) (l : TaskMap) (tid : String) :
    lookupTask (l.map (fun p => (p.1, g p.1 p.2))) tid = (lookupTask l tid).map (g tid) := by
  induction l with
  | nil => rfl
  | cons p l ih =>
    rw [List.map_cons, lookupTask_cons, lookupTask_cons]
    by_cases h : p.1 = tid
    · rw [if_pos h, if_pos h, h]
      rfl
    · rw [if_neg h, if_neg h, ih]

lemma lookupTask_setTask (m : TaskMap) (tid : String) (t : Task) (j : String) :
    lookupTask (setTask m tid t) j =
      if j = tid then (lookupTask m j).map (fun _ => t) else lookupTask m j := by
  induction m with
  | nil => by_cases h : j = tid <;> simp [setTask, lookupTask, h]
  | cons p l ih =>
    unfold setTask at ih ⊢
    rw [List.map_cons]
    by_cases hj : j = tid
    · subst hj
      by_cases hp : p.1 = j <;> simp [lookupTask_cons, hp, ih]
    · by_cases hp : p.1 = tid
      · have hpj : ¬ p.1 = j := fun hh => hj (hh.symm.trans hp)
        have hjt : ¬ tid = j := fun hh => hj hh.symm
        simp [lookupTask_cons, hp, hj, hpj, hjt, ih]
      · by_cases hpj : p.1 = j <;> simp [lookupTask_cons, hp, hj, hpj, ih]

lemma keys_setTask (m : TaskMap) (tid : String) (t : Task) :
    (setTask m tid t).map Prod.fst = m.map Prod.fst := by
  unfold setTask
  rw [List.map_map]
  refine List.map_congr_left fun p _ => ?_
  by_cases h : p.1 = tid <;> simp [h]

lemma keys_pointwise (m : TaskMap) :
    (updateBlockedPointwise m).map Prod.fst = m.map Prod.fst := by
  unfold updateBlockedPointwise
  rw [List.map_map]
  rfl

lemma lookupTask_pointwise (m : TaskMap) (tid : String) :
    lookupTask (updateBlockedPointwise m) tid =
      (lookupTask m tid).map (fun t => updateBlockedOne m t) := by
  unfold updateBlockedPointwise
  exact lookupTask_mapKeyVal (fun _ t => updateBlockedOne m t) m tid

lemma lookupTask_isSome_of_mem_keys {m : TaskMap} {tid : String}
    (h : tid ∈ m.map Prod.fst) : ∃ t, lookupTask m tid = some t := by
  induction m with
  | nil => cases h
  | cons p l ih =>
    rw [lookupTask_cons]
    by_cases hp : p.1 = tid
    · exact ⟨p.2, by rw [if_pos hp]⟩
    · have : tid ∈ l.map Prod.fst := by
        rcases List.mem_cons.mp h with h1 | h1
        · exact absurd h1.symm hp
        · exact h1
      rcases ih this with ⟨t, ht⟩
      exact ⟨t, by rw [if_neg hp, ht]⟩

lemma lookupTask_of_mem_nodup {m : TaskMap} (hnd : NodupKeys m) {p : String × Task}
    (hp : p ∈ m) : lookupTask m p.1 = some p.2 := by
  induction m with
  | nil => cases hp
  | cons q l ih =>
    rw [lookupTask_cons]
    rcases List.mem_cons.mp hp with h1 | h1
    · rw [h1]
      simp
    · have hq : ¬ q.1 = p.1 := by
        have hqn : q.1 ∉ l.map Prod.fst := by
          have := hnd
          unfold NodupKeys at this
          rw [List.map_cons] at this
          exact (List.nodup_cons.mp this).1
        have hpmem : p.1 ∈ l.map Prod.fst := List.mem_map_of_mem Prod.fst h1
        intro hcontra
        exact hqn (hcontra ▸ hpmem)
      rw [if_neg hq]
      refine ih ?_ h1
      unfold NodupKeys at hnd ⊢
      rw [List.map_cons] at hnd
      exact (List.nodup_cons.mp hnd).2

lemma lookupTask_mapIf (m : TaskMap) (done : List String) (l : TaskMap) (tid : String) :
    lookupTask (l.map (fun p => if p.1 ∈ done then (p.1, updateBlockedOne m p.2) else p)) tid =
      if tid ∈ done then (lookupTask l tid).map (fun t => updateBlockedOne m t)
      else lookupTask l tid := by
  induction l with
  | nil => by_cases h : tid ∈ done <;> simp [lookupTask, h]
  | cons p l ih =>
    rw [List.map_cons]
    by_cases hmem : p.1 ∈ done <;> by_cases hp : p.1 = tid
    · subst hp
      simp [lookupTask_cons, hmem, ih]
    · simp [lookupTask_cons, hmem, hp, ih]
    · subst hp
      simp [lookupTask_cons, hmem, ih]
    · simp [lookupTask_cons, hmem, hp, ih]

lemma lookupTask_partialUpdate (m : TaskMap) (done : List String) (tid : String) :
    lookupTask (partialUpdate m done) tid =
      if tid ∈ done then (lookupTask m tid).map (fun t => updateBlockedOne m t)
      else lookupTask m tid := by
  unfold partialUpdate
  exact lookupTask_mapIf m done m tid

lemma agree_partialUpdate (m : TaskMap) (done : List String) :
    agreeCompleted (partialUpdate m done) m := by
  intro tid
  unfold isCompletedAt
  rw [lookupTask_partialUpdate]
  by_cases h : tid ∈ done
  · rw [if_pos h]
    cases hl : lookupTask m tid with
    | none => rfl
    | some t =>
      simp only [Option.map_some']
      exact decide_eq_decide.mpr (updateBlockedOne_completed m t)
  · rw [if_neg h]

lemma agree_pointwise (m : TaskMap) : agreeCompleted (updateBlockedPointwise m) m := by
  intro tid
  unfold isCompletedAt
  rw [lookupTask_pointwise]
  cases hl : lookupTask m tid with
  | none => rfl
  | some t =>
    simp only [Option.map_some']
    exact decide_eq_decide.mpr (updateBlockedOne_completed m t)

lemma foldl_updateBlockedStep (m : TaskMap) (hnd : NodupKeys m) :
    ∀ (rest done : List String), m.map Prod.fst = done ++ rest →
      rest.foldl updateBlockedStep (partialUpdate m done) = partialUpdate m (done ++ rest) := by
  intro rest
  induction rest with
  | nil =>
    intro done _
    simp
  | cons tid rest ih =>
    intro done hsplit
    have htid_mem : tid ∈ m.map Prod.fst := by
      rw [hsplit]
      simp
    have htid_not_done : tid ∉ done := by
      have hnd2 : (done ++ tid :: rest).Nodup := hsplit ▸ hnd
      have hdisj := (List.nodup_append.mp hnd2).2.2
      intro hmem
      exact hdisj hmem (by simp)
    obtain ⟨t, ht⟩ := lookupTask_isSome_of_mem_keys htid_mem
    have hstep : updateBlockedStep (partialUpdate m done) tid = partialUpdate m (done ++ [tid]) := by
      unfold updateBlockedStep
      rw [lookupTask_partialUpdate, if_neg htid_not_done, ht]
      simp only
      rw [updateBlockedOne_congr (agree_partialUpdate m done) t]
      unfold setTask partialUpdate
      rw [List.map_map]
      refine List.map_congr_left fun p hp => ?_
      simp only [Function.comp_apply]
      by_cases hk : p.1 = tid
      · have hpd : p.1 ∉ done := hk ▸ htid_not_done
        have hp2 : p.2 = t := by
          have hl := lookupTask_of_mem_nodup hnd hp
          rw [hk, ht] at hl
          injection hl with h
          exact h.symm
        rw [if_neg hpd]
        simp [hk, hp2]
      · by_cases hpd : p.1 ∈ done
        · rw [if_pos hpd]
          simp [hk, hpd]
        · rw [if_neg hpd]
          simp [hk, hpd]
    rw [List.foldl_cons, hstep,
        ih (done ++ [tid]) (by rw [hsplit, List.append_assoc]; rfl),
        List.append_assoc]
    rfl

lemma partialUpdate_nil (m : TaskMap) : partialUpdate m [] = m := by
  unfold partialUpdate
  have : ∀ p : String × Task, p ∈ m → (if p.1 ∈ ([] : List String) then (p.1, updateBlockedOne m p.2) else p) = p := by
    intro p _
    simp
  rw [List.map_congr_left this]
  simp

lemma update_eq_pointwise (m : TaskMap) (hnd : NodupKeys m) :
    update_blocked_status m = updateBlockedPointwise m := by
  unfold update_blocked_status
  have h1 : (m.map Prod.fst).foldl updateBlockedStep (partialUpdate m []) =
      partialUpdate m ([] ++ m.map Prod.fst) :=
    foldl_updateBlockedStep m hnd (m.map Prod.fst) [] (by simp)
  rw [partialUpdate_nil] at h1
  rw [h1]
  unfold partialUpdate updateBlockedPointwise
  refine List.map_congr_left fun p hp => ?_
  have : p.1 ∈ [] ++ m.map Prod.fst := by
    simp only [List.nil_append]
    exact List.mem_map_of_mem Prod.fst hp
  rw [if_pos this]

lemma updateBlockedOne_idem (m : TaskMap) (t : Task) :
    updateBlockedOne m (updateBlockedOne m t) = updateBlockedOne m t := by
  by_cases hd : t.dependencies = [] <;> by_cases hc : depsComplete m t.dependencies = true <;>
    cases ht : t.status <;> simp_all [updateBlockedOne]

lemma pointwise_idem (m : TaskMap) :
    updateBlockedPointwise (updateBlockedPointwise m) = updateBlockedPointwise m := by
  show (updateBlockedPointwise m).map
      (fun p => (p.1, updateBlockedOne (updateBlockedPointwise m) p.2)) = updateBlockedPointwise m
  rw [show (updateBlockedPointwise m : TaskMap) =
        m.map (fun p => (p.1, updateBlockedOne m p.2)) from rfl, List.map_map]
  refine List.map_congr_left fun p _ => ?_
  simp only [Function.comp_apply]
  have h1 : updateBlockedOne (m.map (fun p => (p.1, updateBlockedOne m p.2)))
        (updateBlockedOne m p.2) = updateBlockedOne m (updateBlockedOne m p.2) :=
    updateBlockedOne_congr (agree_pointwise m) _
  rw [h1, updateBlockedOne_idem]

end PriorityQueue

open PriorityQueue

/-- C1: for every task and time `now`, the score starts from the numeric
priority value (1..5); a parsable deadline contributes exactly one bracket
multiplier chosen by the first matching strict comparison on hours-until
(overdue ×0.1, <1h ×0.3, <4h ×0.5, <24h ×0.7, <72h ×0.9, otherwise none);
independently, age > 24h multiplies by 0.95 and age > 72h additionally by
0.90; BLOCKED status multiplies the running score by 10; an unparsable
deadline or creation time contributes factor 1 and raises no error.  Stated
as: the score equals the product of the base value and the three factors
defined from the spec's words. -/
theorem claim_C1 (t : Task) (now : ℚ) :
    t.calculate_score now =
      (t.priority.value : ℚ) * deadlineFactor t now * ageFactor t now * blockedFactor t :=
  calculate_score_eq t now

/-- C8: a task whose deadline is strictly in the past scores strictly below
the same task (same creation time, same status) with priority CRITICAL and
a deadline 7 days in the future. -/
theorem claim_C8 (t : Task) (now d : ℚ)
    (hdl : t.deadline = some (some d)) (hpast : d < now) :
    t.calculate_score now <
      ({t with priority := .CRITICAL,
               deadline := some (some (now + 7 * 24 * 3600))} : Task).calculate_score now := by
  have hA : 0 < ageFactor t now := ageFactor_pos t now
  have hB : 0 < blockedFactor t := blockedFactor_pos t
  have hd1 : deadlineFactor t now = 1/10 := by
    unfold deadlineFactor
    rw [hdl]
    have : (d - now) / 3600 < 0 := div_neg_of_neg_of_pos (by linarith) (by norm_num)
    simp only [this, if_pos]
  set t2 : Task :=
    {t with priority := .CRITICAL, deadline := some (some (now + 7 * 24 * 3600))} with ht2
  have hd2 : deadlineFactor t2 now = 1 := by
    unfold deadlineFactor
    have hh : (now + 7 * 24 * 3600 - now) / 3600 = 168 := by ring_nf
    simp only [ht2]
    rw [hh]
    norm_num
  have hage : ageFactor t2 now = ageFactor t now := by
    unfold ageFactor
    rfl
  have hblk : blockedFactor t2 = blockedFactor t := by
    unfold blockedFactor
    rfl
  rw [calculate_score_eq, calculate_score_eq, hd1, hd2, hage, hblk]
  have hv2 : (t2.priority.value : ℚ) = 1 := by norm_num [ht2, TaskPriority.value]
  rw [hv2]
  have h1 : (t.priority.value : ℚ) * (1/10) < 1 := by
    have := priority_value_le_five t.priority
    linarith
  have h2 : 0 < ageFactor t now * blockedFactor t := mul_pos hA hB
  calc (t.priority.value : ℚ) * (1/10) * ageFactor t now * blockedFactor t
      = ((t.priority.value : ℚ) * (1/10)) * (ageFactor t now * blockedFactor t) := by ring
    _ < 1 * (ageFactor t now * blockedFactor t) := by
        exact mul_lt_mul_of_pos_right h1 h2
    _ = 1 * 1 * ageFactor t now * blockedFactor t := by ring

/-- C8 witness: a concrete overdue LOW task scores below its CRITICAL
7-days-out variant. -/
theorem claim_C8_witness :
    (({ id := "t1", title := "x", description := "", status := .PENDING,
        priority := .LOW, category := .OTHER, assigned_agent := "ANY",
        created_by := "", created_at := some 0, deadline := some (some 0),
        dependencies := [], tags := [], estimated_duration := 30,
        actual_duration := none, started_at := none, completed_at := none,
        notes := "" } : Task).deadline = some (some (0 : ℚ))) ∧
    (({ id := "t1", title := "x", description := "", status := .PENDING,
        priority := .LOW, category := .OTHER, assigned_agent := "ANY",
        created_by := "", created_at := some 0, deadline := some (some 0),
        dependencies := [], tags := [], estimated_duration := 30,
        actual_duration := none, started_at := none, completed_at := none,
        notes := "" } : Task).calculate_score 3600 <
      ({ id := "t1", title := "x", description := "", status := .PENDING,
         priority := .CRITICAL, category := .OTHER, assigned_agent := "ANY",
         created_by := "", created_at := some 0,
         deadline := some (some ((3600 : ℚ) + 7 * 24 * 3600)),
         dependencies := [], tags := [], estimated_duration := 30,
         actual_duration := none, started_at := none, completed_at := none,
         notes := "" } : Task).calculate_score 3600) :=
  ⟨rfl, claim_C8 _ 3600 0 rfl (by norm_num)⟩

/-- C9: a BLOCKED task scores strictly more than 5 times the identical task
(same priority, deadline, and age) with status PENDING. -/
theorem claim_C9 (t : Task) (now : ℚ) (hb : t.status = .BLOCKED) :
    t.calculate_score now > 5 * (({t with status := .PENDING} : Task).calculate_score now) := by
  have hD : 0 < deadlineFactor t now := deadlineFactor_pos t now
  have hA : 0 < ageFactor t now := ageFactor_pos t now
  have hP : 0 < (t.priority.value : ℚ) := priority_value_pos t.priority
  set t2 : Task := {t with status := .PENDING} with ht2
  have hdf : deadlineFactor t2 now = deadlineFactor t now := by
    unfold deadlineFactor
    rfl
  have haf : ageFactor t2 now = ageFactor t now := by
    unfold ageFactor
    rfl
  have hb1 : blockedFactor t = 10 := by
    unfold blockedFactor
    rw [if_pos hb]
  have hb2 : blockedFactor t2 = 1 := by
    unfold blockedFactor
    rw [ht2]
    simp
  rw [calculate_score_eq, calculate_score_eq, hdf, haf, hb1, hb2]
  have hs : 0 < (t.priority.value : ℚ) * deadlineFactor t now * ageFactor t now :=
    mul_pos (mul_pos hP hD) hA
  nlinarith [hs]

/-- C9 witness: a concrete BLOCKED task scores more than 5 times its PENDING
variant. -/
theorem claim_C9_witness :
    ({ id := "t2", title := "y", description := "", status := .BLOCKED,
       priority := .MEDIUM, category := .OTHER, assigned_agent := "ANY",
       created_by := "", created_at := some 0, deadline := none,
       dependencies := [], tags := [], estimated_duration := 30,
       actual_duration := none, started_at := none, completed_at := none,
       notes := "" } : Task).calculate_score 0 >
      5 * (({ id := "t2", title := "y", description := "", status := .PENDING,
              priority := .MEDIUM, category := .OTHER, assigned_agent := "ANY",
              created_by := "", created_at := some 0, deadline := none,
              dependencies := [], tags := [], estimated_duration := 30,
              actual_duration := none, started_at := none, completed_at := none,
              notes := "" } : Task).calculate_score 0) :=
  claim_C9 _ 0 rfl

/-- C6: running `_update_blocked_status` twice in a row with no intervening
mutation yields, for every task, the same status as running it once. -/
theorem claim_C6 (m : TaskMap) (hnd : NodupKeys m) :
    update_blocked_status (update_blocked_status m) = update_blocked_status m := by
  have h1 := update_eq_pointwise m hnd
  have hnd2 : NodupKeys (update_blocked_status m) := by
    unfold NodupKeys
    rw [h1, keys_pointwise]
    exact hnd
  rw [update_eq_pointwise _ hnd2, h1, pointwise_idem]

/-- C6 witness: idempotence at a concrete three-task store. -/
theorem claim_C6_witness :
    NodupKeys sampleState3w.tasks ∧
    update_blocked_status (update_blocked_status sampleState3w.tasks) =
      update_blocked_status sampleState3w.tasks :=
  ⟨by decide, claim_C6 _ (by decide)⟩

/-- C7: a task that is not COMPLETED, CANCELLED, FAILED, or IN_PROGRESS and
whose dependency list references an id absent from the task set is left
BLOCKED by every `_update_blocked_status` pass; the dangling reference never
counts as complete. -/
theorem claim_C7 (m : TaskMap) (hnd : NodupKeys m) (tid : String) (t : Task) (d : String)
    (ht : lookupTask m tid = some t)
    (h1 : t.status ≠ .COMPLETED) (h2 : t.status ≠ .CANCELLED)
    (h3 : t.status ≠ .FAILED) (h4 : t.status ≠ .IN_PROGRESS)
    (hd : d ∈ t.dependencies) (hdangle : lookupTask m d = none) :
    statusAt (update_blocked_status m) tid = some .BLOCKED := by
  rw [update_eq_pointwise m hnd]
  unfold statusAt
  rw [lookupTask_pointwise, ht]
  simp only [Option.map_some']
  have hic : isCompletedAt m d = false := by
    unfold isCompletedAt
    rw [hdangle]
  have hdc : depsComplete m t.dependencies = false := by
    by_contra hcon
    rw [Bool.not_eq_false] at hcon
    unfold depsComplete at hcon
    have := List.all_eq_true.mp hcon d hd
    rw [hic] at this
    cases this
  have hne : t.dependencies ≠ [] := by
    intro hnil
    rw [hnil] at hd
    cases hd
  unfold updateBlockedOne
  rw [if_neg (by simp [h1, h2, h3, h4]), if_pos hne, if_pos (by simp [hdc])]

/-- C7 witness: the concrete dangling-dependency store keeps task a BLOCKED. -/
theorem claim_C7_witness :
    lookupTask sampleState7.tasks "gone" = none ∧
    statusAt (update_blocked_status sampleState7.tasks) "a" = some .BLOCKED :=
  ⟨rfl, claim_C7 _ (by decide) "a" sampleTask7 "gone" rfl
    (by decide) (by decide) (by decide) (by decide) (by decide) rfl⟩

lemma lookupAgent_cons (p : String × AgentStatus) (l : AgentMap) (name : String) :
    lookupAgent (p :: l) name = if p.1 = name then some p.2 else lookupAgent l name := by
  unfold lookupAgent
  by_cases h : p.1 = name <;> simp [List.find?, h]

lemma lookupAgent_setAgent (ags : AgentMap) (name : String) (a : AgentStatus) (j : String) :
    lookupAgent (setAgent ags name a) j =
      if j = name then (lookupAgent ags j).map (fun _ => a) else lookupAgent ags j := by
  induction ags with
  | nil => by_cases h : j = name <;> simp [setAgent, lookupAgent, h]
  | cons p l ih =>
    unfold setAgent at ih ⊢
    rw [List.map_cons]
    by_cases hj : j = name
    · subst hj
      by_cases hp : p.1 = j <;> simp [lookupAgent_cons, hp, ih]
    · by_cases hp : p.1 = name
      · have hpj : ¬ p.1 = j := fun hh => hj (hh.symm.trans hp)
        have hjt : ¬ name = j := fun hh => hj hh.symm
        simp [lookupAgent_cons, hp, hj, hpj, hjt, ih]
      · by_cases hpj : p.1 = j <;> simp [lookupAgent_cons, hp, hj, hpj, ih]

/-- C4: for every known task id, cancel returns true and sets the status to
CANCELLED, and leaves every agent record unchanged: the agent-release branch
compares the task's status to IN_PROGRESS only after that same field has
been overwritten to CANCELLED, so it never fires. -/
theorem claim_C4 (s : QState) (task_id reason : String) (t : Task)
    (ht : lookupTask s.tasks task_id = some t) :
    (cancel s task_id reason).2 = true ∧
    statusAt (cancel s task_id reason).1.tasks task_id = some .CANCELLED ∧
    (cancel s task_id reason).1.agents = s.agents := by
  by_cases hr : reason = "" <;>
    simp [cancel, ht, hr, statusAt, lookupTask_setTask]

/-- C4 witness: cancelling a concrete IN_PROGRESS task whose agent is
registered and busy succeeds and leaves the agent map untouched. -/
theorem claim_C4_witness :
    lookupTask sampleState4.tasks "t1" = some sampleTask4 ∧
    (cancel sampleState4 "t1" "").2 = true ∧
    statusAt (cancel sampleState4 "t1" "").1.tasks "t1" = some .CANCELLED ∧
    (cancel sampleState4 "t1" "").1.agents = sampleState4.agents :=
  ⟨rfl, claim_C4 sampleState4 "t1" "" sampleTask4 rfl⟩

/-- C10: for every known task whose assigned agent is registered, complete
marks that agent available, clears its current task, increments its daily
counter, and stamps its last-active time — with no hypothesis on the task's
prior status or on which task the agent record currently points at. -/
theorem claim_C10 (s : QState) (task_id notes : String) (now : ℚ) (t : Task) (a : AgentStatus)
    (ht : lookupTask s.tasks task_id = some t)
    (ha : lookupAgent s.agents t.assigned_agent = some a) :
    (complete s task_id notes now).2 = true ∧
    lookupAgent (complete s task_id notes now).1.agents t.assigned_agent =
      some {a with available := true, current_task := none,
                   completed_today := a.completed_today + 1,
                   last_active := some now} := by
  by_cases hn : notes = "" <;>
    rcases hst : t.started_at with _ | (_ | q) <;>
    simp [complete, ht, hn, hst, ha, lookupAgent_setAgent]

/-- C10 witness: completing a concrete PENDING (never-started) task whose
agent record points at a different task still frees the agent and bumps its
counter. -/
theorem claim_C10_witness :
    (complete sampleState10 "t1" "" 0).2 = true ∧
    lookupAgent (complete sampleState10 "t1" "" 0).1.agents "FORGE" =
      some {baseAgent with available := true, current_task := none,
                           completed_today := baseAgent.completed_today + 1,
                           last_active := some 0} :=
  claim_C10 sampleState10 "t1" "" 0
    {baseTask with id := "t1", assigned_agent := "FORGE"} baseAgent rfl rfl

lemma get_next_eq (s : QState) (agent : Option String) (now : ℚ) :
    get_next s agent now =
      ((gnCandidates s agent).mergeSort
        (fun t1 t2 => decide (t1.calculate_score now ≤ t2.calculate_score now))).head? := by
  unfold get_next gnCandidates
  cases agent with
  | none =>
    dsimp only
    split_ifs with h1
    · rw [List.isEmpty_iff] at h1
      rw [h1]
      simp
    · rfl
  | some ag =>
    dsimp only
    split_ifs with h1 h2
    · rw [List.isEmpty_iff] at h1
      rw [h1]
      simp
    · rw [List.isEmpty_iff] at h2
      rw [h2]
      simp
    · rfl

lemma mergeSort_head?_min (now : ℚ) (l : List Task) (t : Task)
    (h : (l.mergeSort
        (fun t1 t2 => decide (t1.calculate_score now ≤ t2.calculate_score now))).head? =
      some t) :
    t ∈ l ∧ ∀ u ∈ l, t.calculate_score now ≤ u.calculate_score now := by
  set le := fun t1 t2 : Task => decide (t1.calculate_score now ≤ t2.calculate_score now)
    with hle
  have htrans : ∀ a b c : Task, le a b → le b c → le a c := by
    intro a b c hab hbc
    simp only [hle, decide_eq_true_eq] at *
    exact le_trans hab hbc
  have htotal : ∀ a b : Task, le a b || le b a := by
    intro a b
    simp only [hle, Bool.or_eq_true, decide_eq_true_eq]
    exact le_total _ _
  have hsorted := List.sorted_mergeSort htrans htotal l
  cases hms : l.mergeSort le with
  | nil =>
    rw [hms] at h
    cases h
  | cons a rest =>
    rw [hms] at h
    have hat : a = t := by
      simp only [List.head?_cons] at h
      injection h
    subst hat
    constructor
    · have hmem : a ∈ l.mergeSort le := by
        rw [hms]
        exact List.mem_cons_self _ _
      exact List.mem_mergeSort.mp hmem
    · intro u hu
      have hu2 : u ∈ l.mergeSort le := List.mem_mergeSort.mpr hu
      rw [hms] at hu2
      rcases List.mem_cons.mp hu2 with h1 | h1
      · rw [h1]
      · rw [hms] at hsorted
        have hlt := (List.pairwise_cons.mp hsorted).1 u h1
        simpa [hle, decide_eq_true_eq] using hlt

lemma mem_gnCandidates (s : QState) (agent : Option String) (t : Task)
    (h : t ∈ gnCandidates s agent) :
    t.status = .PENDING ∧
      (∀ ag, agent = some ag → t.assigned_agent = ag ∨ t.assigned_agent = "ANY") := by
  unfold gnCandidates at h
  cases agent with
  | none =>
    simp only at h
    have h1 := List.mem_filter.mp h
    refine ⟨by simpa using h1.2, ?_⟩
    intro ag hag
    cases hag
  | some ag0 =>
    simp only at h
    have h2 := List.mem_filter.mp h
    have h1 := List.mem_filter.mp h2.1
    refine ⟨by simpa using h1.2, ?_⟩
    intro ag hag
    injection hag with hh
    subst hh
    have h3 := h2.2
    simp only [Bool.or_eq_true, decide_eq_true_eq] at h3
    exact h3.symm

/-- C2: `get_next` first recomputes blocked/pending status, then considers
exactly the PENDING tasks; with an agent it keeps only tasks assigned to
that agent or to the wildcard ANY; it returns a task of minimum score among
the remaining candidates, or none exactly when no candidate remains.  In
particular, `get_next(agent="FORGE")` never returns a task assigned to
ATLAS. -/
theorem claim_C2 (s : QState) (now : ℚ) :
    (∀ agent : Option String,
      (get_next s agent now = none ↔ gnCandidates s agent = []) ∧
      (∀ t : Task, get_next s agent now = some t →
        t ∈ gnCandidates s agent ∧ t.status = .PENDING ∧
        (∀ ag : String, agent = some ag →
          t.assigned_agent = ag ∨ t.assigned_agent = "ANY") ∧
        (∀ u ∈ gnCandidates s agent,
          t.calculate_score now ≤ u.calculate_score now))) ∧
    (∀ t : Task, get_next s (some "FORGE") now = some t →
      t.assigned_agent ≠ "ATLAS") := by
  have main : ∀ agent : Option String,
      (get_next s agent now = none ↔ gnCandidates s agent = []) ∧
      (∀ t : Task, get_next s agent now = some t →
        t ∈ gnCandidates s agent ∧ t.status = .PENDING ∧
        (∀ ag : String, agent = some ag →
          t.assigned_agent = ag ∨ t.assigned_agent = "ANY") ∧
        (∀ u ∈ gnCandidates s agent,
          t.calculate_score now ≤ u.calculate_score now)) := by
    intro agent
    constructor
    · rw [get_next_eq]
      constructor
      · intro h
        rw [List.head?_eq_none_iff] at h
        have hperm := List.mergeSort_perm (gnCandidates s agent)
          (fun t1 t2 => decide (t1.calculate_score now ≤ t2.calculate_score now))
        rw [h] at hperm
        exact (hperm.symm.eq_nil)
      · intro h
        rw [h]
        simp
    · intro t ht
      rw [get_next_eq] at ht
      obtain ⟨hmem, hmin⟩ := mergeSort_head?_min now _ t ht
      obtain ⟨hst, hagent⟩ := mem_gnCandidates s agent t hmem
      exact ⟨hmem, hst, hagent, hmin⟩
  refine ⟨main, ?_⟩
  intro t ht
  have h := ((main (some "FORGE")).2 t ht).2.2.1 "FORGE" rfl
  rcases h with h | h <;> rw [h] <;> decide

unseal List.merge List.mergeSort in
/-- C2 witness: in the concrete two-task store, `get_next` for FORGE returns
the ANY-assigned task, which is not assigned to ATLAS. -/
theorem claim_C2_witness :
    get_next sampleState2 (some "FORGE") 0 =
      some {baseTask with id := "t2", assigned_agent := "ANY"} ∧
    ({baseTask with id := "t2", assigned_agent := "ANY"} : Task).assigned_agent ≠ "ATLAS" :=
  ⟨rfl, (claim_C2 sampleState2 0).2 _ rfl⟩

lemma length_filter_impl {α : Type} (p q : α → Bool) (h : ∀ a, p a = true → q a = true) :
    ∀ l : List α, (l.filter p).length ≤ (l.filter q).length := by
  intro l
  induction l with
  | nil => simp
  | cons a l ih =>
    by_cases hp : p a = true
    · simp only [List.filter_cons, hp, h a hp, if_pos]
      simpa using ih
    · by_cases hq : q a = true <;> simp only [List.filter_cons, hp, hq] <;> simp <;> omega

lemma length_filter_cons_lt (visited : List String) (c : String) (hnv : c ∉ visited) :
    ∀ l : List String, c ∈ l →
      (l.filter (fun k => decide (k ∉ c :: visited))).length <
        (l.filter (fun k => decide (k ∉ visited))).length := by
  intro l
  induction l with
  | nil => intro h; cases h
  | cons a l ih =>
    intro hmem
    have himpl : ∀ k : String, decide (k ∉ c :: visited) = true →
        decide (k ∉ visited) = true := by
      intro k hk
      simp only [decide_eq_true_eq, List.mem_cons] at *
      exact fun hkv => hk (Or.inr hkv)
    by_cases hac : a = c
    · subst hac
      rw [List.filter_cons_of_neg (by simp),
          List.filter_cons_of_pos (by simpa using hnv)]
      have hle := length_filter_impl _ _ himpl l
      simp only [List.length_cons]
      omega
    · have hmem2 : c ∈ l := by
        rcases List.mem_cons.mp hmem with h1 | h1
        · exact absurd h1.symm hac
        · exact h1
      by_cases haV : a ∈ visited
      · rw [List.filter_cons_of_neg (by simp [haV]),
            List.filter_cons_of_neg (by simpa using haV)]
        exact ih hmem2
      · rw [List.filter_cons_of_pos (by simp [List.mem_cons, hac, haV]),
            List.filter_cons_of_pos (by simpa using haV)]
        simp only [List.length_cons]
        have hlt := ih hmem2
        omega

lemma unvisitedCount_cons_lt {m : TaskMap} {visited : List String} {c : String}
    (hk : c ∈ m.map Prod.fst) (hnv : c ∉ visited) :
    unvisitedCount m (c :: visited) < unvisitedCount m visited :=
  length_filter_cons_lt visited c hnv (m.map Prod.fst) hk

lemma unvisitedCount_anti (m : TaskMap) {V W : List String} (h : V ⊆ W) :
    unvisitedCount m W ≤ unvisitedCount m V := by
  unfold unvisitedCount
  apply length_filter_impl
  intro a ha
  simp only [decide_eq_true_eq] at *
  exact fun hmem => ha (h hmem)

lemma unvisitedCount_le (m : TaskMap) (V : List String) :
    unvisitedCount m V ≤ m.length := by
  unfold unvisitedCount
  calc ((m.map Prod.fst).filter _).length ≤ (m.map Prod.fst).length :=
        List.length_filter_le _ _
    _ = m.length := List.length_map _ _

lemma mem_keys_of_lookup {m : TaskMap} {c : String} {t : Task}
    (h : lookupTask m c = some t) : c ∈ m.map Prod.fst := by
  unfold lookupTask at h
  cases hf : m.find? (fun p => decide (p.1 = c)) with
  | none => rw [hf] at h; cases h
  | some p =>
    have hp := List.find?_some hf
    have hmem := List.mem_of_find?_eq_some hf
    have hpc : p.1 = c := by simpa using hp
    exact hpc ▸ List.mem_map_of_mem Prod.fst hmem

/-- DFS invariant: when a call returns false, everything it freshly visited
is recorded, is not the target, and has all its successors visited. -/
lemma dfsVisit_inv (m : TaskMap) (target : String) :
    ∀ (fuel : Nat) (current : String) (visited V2 : List String),
      unvisitedCount m visited < fuel → target ∉ visited →
      dfsVisit m target fuel current visited = (false, V2) →
      visited ⊆ V2 ∧ current ∈ V2 ∧ target ∉ V2 ∧
        (∀ v ∈ V2, v ∉ visited → succs m v ⊆ V2) := by
  intro fuel
  induction fuel with
  | zero =>
    intro _ _ _ hf
    exact absurd hf (Nat.not_lt_zero _)
  | succ f ih =>
    have hdeps : ∀ (deps : List String) (V V2 : List String),
        unvisitedCount m V < f → target ∉ V →
        dfsDeps m target f deps V = (false, V2) →
        V ⊆ V2 ∧ target ∉ V2 ∧ (∀ d ∈ deps, d ∈ V2) ∧
          (∀ v ∈ V2, v ∉ V → succs m v ⊆ V2) := by
      intro deps
      induction deps with
      | nil =>
        intro V V2 _ htv hrun
        simp only [dfsDeps] at hrun
        obtain ⟨rfl⟩ : V = V2 := by
          injection hrun
        refine ⟨fun _ hx => hx, htv, ?_, ?_⟩
        · intro d hd
          cases hd
        · intro v _ hv2
          exact absurd ‹v ∈ V› hv2
      | cons d ds ihd =>
        intro V V2 hf htv hrun
        simp only [dfsDeps] at hrun
        cases hv : dfsVisit m target f d V with
        | mk b V1 =>
          rw [hv] at hrun
          cases b with
          | true => simp at hrun
          | false =>
            simp only at hrun
            obtain ⟨hsub1, hdmem, htv1, hcl1⟩ := ih d V V1 hf htv hv
            have hf1 : unvisitedCount m V1 < f :=
              lt_of_le_of_lt (unvisitedCount_anti m hsub1) hf
            obtain ⟨hsub2, htv2, hds2, hcl2⟩ := ihd V1 V2 hf1 htv1 hrun
            refine ⟨fun x hx => hsub2 (hsub1 hx), htv2, ?_, ?_⟩
            · intro e he
              rcases List.mem_cons.mp he with h1 | h1
              · exact h1 ▸ hsub2 hdmem
              · exact hds2 e h1
            · intro v hv2 hvV
              by_cases hvV1 : v ∈ V1
              · exact fun x hx => hsub2 (hcl1 v hvV1 hvV hx)
              · exact hcl2 v hv2 hvV1
    intro current visited V2 hf htv hrun
    simp only [dfsVisit] at hrun
    by_cases h1 : current = target
    · rw [if_pos h1] at hrun
      cases hrun
    · rw [if_neg h1] at hrun
      by_cases h2 : current ∈ visited
      · rw [if_pos h2] at hrun
        obtain ⟨rfl⟩ : visited = V2 := by injection hrun
        refine ⟨fun _ hx => hx, h2, htv, ?_⟩
        intro v hv2 hvV
        exact absurd hv2 hvV
      · rw [if_neg h2] at hrun
        cases hlk : lookupTask m current with
        | none =>
          rw [hlk] at hrun
          obtain ⟨rfl⟩ : current :: visited = V2 := by injection hrun
          refine ⟨fun x hx => List.mem_cons_of_mem _ hx, List.mem_cons_self _ _, ?_, ?_⟩
          · intro hmem
            rcases List.mem_cons.mp hmem with hh | hh
            · exact h1 hh.symm
            · exact htv hh
          · intro v hvmem hvV
            rcases List.mem_cons.mp hvmem with hh | hh
            · subst hh
              unfold succs
              rw [hlk]
              exact fun x hx => absurd hx (List.not_mem_nil x)
            · exact absurd hh hvV
        | some t =>
          rw [hlk] at hrun
          have hkey : current ∈ m.map Prod.fst := mem_keys_of_lookup hlk
          have hfdec : unvisitedCount m (current :: visited) < f := by
            have := unvisitedCount_cons_lt hkey h2
            omega
          have htv1 : target ∉ current :: visited := by
            intro hmem
            rcases List.mem_cons.mp hmem with hh | hh
            · exact h1 hh.symm
            · exact htv hh
          obtain ⟨hsub, htv2, hds, hcl⟩ :=
            hdeps t.dependencies (current :: visited) V2 hfdec htv1 hrun
          have hcur : current ∈ V2 := hsub (List.mem_cons_self _ _)
          refine ⟨fun x hx => hsub (List.mem_cons_of_mem _ hx), hcur, htv2, ?_⟩
          intro v hvmem hvV
          by_cases hvc : v = current
          · subst hvc
            unfold succs
            rw [hlk]
            exact fun x hx => hds x hx
          · refine hcl v hvmem ?_
            intro hmem
            rcases List.mem_cons.mp hmem with hh | hh
            · exact hvc hh
            · exact hvV hh

/-- If the target is reachable from the start, the full-fuel DFS cannot
return false. -/
lemma dfs_complete (m : TaskMap) (target start : String) (V2 : List String)
    (hreach : Reaches m start target)
    (hrun : dfsVisit m target (m.length + 1) start [] = (false, V2)) : False := by
  have hfuel : unvisitedCount m [] < m.length + 1 :=
    Nat.lt_succ_of_le (unvisitedCount_le m [])
  obtain ⟨_, hstart, htv, hcl⟩ :=
    dfsVisit_inv m target (m.length + 1) start [] V2 hfuel (List.not_mem_nil _) hrun
  have key : ∀ x y : String, Reaches m x y → x ∈ V2 → y ∈ V2 := by
    intro x y hr
    induction hr with
    | refl => exact id
    | step hb _ ihr =>
      intro hx
      exact ihr (hcl _ hx (List.not_mem_nil _) hb)
  exact htv (key start target hreach hstart)

lemma would_create_cycle_true_of_reaches (m : TaskMap) (task_id depends_on : String)
    (hreach : Reaches m depends_on task_id) :
    would_create_cycle m task_id depends_on = true := by
  unfold would_create_cycle
  cases hrun : dfsVisit m task_id (m.length + 1) depends_on [] with
  | mk b V2 =>
    cases b with
    | true => rfl
    | false => exact absurd hrun (fun h => dfs_complete m task_id depends_on V2 hreach h)

/-- C5: when `task_id` is reachable from `depends_on` along existing
dependency edges (both tasks existing), `add_dependency` returns false and
performs no mutation at all: the returned state is the input state. -/
theorem claim_C5 (s : QState) (task_id depends_on : String) (t1 t2 : Task)
    (h1 : lookupTask s.tasks task_id = some t1)
    (h2 : lookupTask s.tasks depends_on = some t2)
    (hreach : Reaches s.tasks depends_on task_id) :
    add_dependency s task_id depends_on = (s, false) := by
  unfold add_dependency
  rw [h1, h2, would_create_cycle_true_of_reaches s.tasks task_id depends_on hreach]
  simp

/-- C5 witness: with a depending on b, attempting to add the reverse edge
b depends-on a is rejected and the concrete state is returned unchanged. -/
theorem claim_C5_witness :
    Reaches sampleState5.tasks "a" "b" ∧
    add_dependency sampleState5 "b" "a" = (sampleState5, false) := by
  have hr : Reaches sampleState5.tasks "a" "b" :=
    Reaches.step (show "b" ∈ succs sampleState5.tasks "a" by decide) (Reaches.refl "b")
  exact ⟨hr, claim_C5 sampleState5 "b" "a" _ _ rfl rfl hr⟩

lemma statusAt_setTask_ne (m : TaskMap) (tid : String) (t : Task) {c : String}
    (hc : c ≠ tid) : statusAt (setTask m tid t) c = statusAt m c := by
  unfold statusAt
  rw [lookupTask_setTask, if_neg hc]

lemma lookupTask_filter_ne (m : TaskMap) (tid j : String) (hne : j ≠ tid) :
    lookupTask (m.filter (fun p => ! decide (p.1 = tid))) j = lookupTask m j := by
  induction m with
  | nil => rfl
  | cons p l ih =>
    by_cases hp : p.1 = tid
    · rw [List.filter_cons_of_neg (by simp [hp])]
      rw [lookupTask_cons, if_neg (fun hh : p.1 = j => hne (hh ▸ hp))]
      exact ih
    · rw [List.filter_cons_of_pos (by simp [hp])]
      rw [lookupTask_cons, lookupTask_cons]
      by_cases hpj : p.1 = j <;> simp [hpj, ih]

lemma lookupTask_append_single_ne (m : TaskMap) (tid j : String) (t : Task)
    (hne : j ≠ tid) : lookupTask (m ++ [(tid, t)]) j = lookupTask m j := by
  induction m with
  | nil =>
    rw [List.nil_append, lookupTask_cons, if_neg (fun hh : tid = j => hne hh.symm)]
  | cons p l ih =>
    rw [List.cons_append, lookupTask_cons, lookupTask_cons]
    by_cases hpj : p.1 = j <;> simp [hpj, ih]

lemma lookup_mem {m : TaskMap} {c : String} {t : Task}
    (h : lookupTask m c = some t) : (c, t) ∈ m := by
  unfold lookupTask at h
  cases hf : m.find? (fun p => decide (p.1 = c)) with
  | none => rw [hf] at h; cases h
  | some p =>
    rw [hf] at h
    have hp : p.1 = c := by simpa using List.find?_some hf
    have hmem := List.mem_of_find?_eq_some hf
    have ht : p.2 = t := by
      simp only [Option.map_some'] at h
      injection h
    have hpe : p = (c, t) := by
      cases p
      simp only at hp ht
      rw [hp, ht]
    rw [← hpe]
    exact hmem

lemma agree_setTask_same_status {m : TaskMap} {tid : String} {t0 t2 : Task}
    (hl : lookupTask m tid = some t0) (hst : t2.status = t0.status) :
    agreeCompleted (setTask m tid t2) m := by
  intro j
  unfold isCompletedAt
  rw [lookupTask_setTask]
  by_cases hj : j = tid
  · rw [if_pos hj, hj, hl]
    simp only [Option.map_some']
    rw [hst]
  · rw [if_neg hj]

lemma updateBlockedOne_blocked {m : TaskMap} {t : Task} (hb : t.status = .BLOCKED)
    (hd : t.dependencies ≠ []) (hc : depsComplete m t.dependencies = false) :
    updateBlockedOne m t = {t with status := .BLOCKED} := by
  unfold updateBlockedOne
  rw [if_neg (by simp [hb]), if_pos hd, if_pos (by simp [hc])]

/-- A BLOCKED task other than the one edited stays BLOCKED through a
status-preserving single-task edit followed by the recompute pass. -/
lemma blocked_stays_after_set_recompute (m : TaskMap) (hnd : NodupKeys m)
    (hwb : WellBlocked m) (A : String) (tA t2 : Task)
    (hA : lookupTask m A = some tA) (hst : t2.status = tA.status)
    (c : String) (hcA : c ≠ A) (hb : statusAt m c = some .BLOCKED) :
    statusAt (update_blocked_status (setTask m A t2)) c = some .BLOCKED := by
  have hnd2 : NodupKeys (setTask m A t2) := by
    unfold NodupKeys
    rw [keys_setTask]
    exact hnd
  rw [update_eq_pointwise _ hnd2]
  unfold statusAt at hb ⊢
  rw [lookupTask_pointwise, lookupTask_setTask, if_neg hcA]
  cases hlc : lookupTask m c with
  | none => rw [hlc] at hb; cases hb
  | some tc =>
    rw [hlc] at hb
    simp only [Option.map_some'] at hb ⊢
    have hbc : tc.status = .BLOCKED := by injection hb
    have hmemc : (c, tc) ∈ m := lookup_mem hlc
    obtain ⟨hdne, hdc⟩ := hwb (c, tc) hmemc hbc
    have hagree : agreeCompleted (setTask m A t2) m := agree_setTask_same_status hA hst
    have hdc2 : depsComplete (setTask m A t2) tc.dependencies = false := by
      rw [depsComplete_congr hagree]
      exact hdc
    rw [updateBlockedOne_blocked hbc hdne hdc2]

/-- C3 (amended): among the nine mutating operations, from a state in which
every BLOCKED task has a nonempty, not-all-completed dependency list (as
after any recompute pass), complete is the only mutation that can cause a
task other than its argument to move from BLOCKED to PENDING — every other
operation leaves such a task BLOCKED.  From arbitrary states the original
claim fails, because add_dependency and remove_dependency also re-run the
recompute pass (see the counterexample). -/
theorem claim_C3_amended (op : MutOp) (hop : op.isCompleteOp = false)
    (s : QState) (hnd : NodupKeys s.tasks) (hwb : WellBlocked s.tasks)
    (c : String) (hc : c ≠ op.argTask)
    (hb : statusAt s.tasks c = some .BLOCKED) :
    statusAt (op.apply s).tasks c = some .BLOCKED := by
  cases op with
  | opComplete task_id notes now => simp [MutOp.isCompleteOp] at hop
  | opAdd newId args now =>
    simp only [MutOp.argTask] at hc
    simp only [MutOp.apply]
    unfold add insertTask
    dsimp only
    by_cases hins : (lookupTask s.tasks newId).isSome
    · rw [if_pos hins]
      rwa [statusAt_setTask_ne _ _ _ hc]
    · rw [if_neg hins]
      unfold statusAt
      rw [lookupTask_append_single_ne _ _ _ _ hc]
      exact hb
  | opUpdate task_id args =>
    simp only [MutOp.argTask] at hc
    simp only [MutOp.apply]
    unfold update
    cases hl : lookupTask s.tasks task_id with
    | none => simp only [hl]; exact hb
    | some t =>
      simp only [hl]
      show statusAt (setTask s.tasks task_id (applyUpdate t args)) c = some .BLOCKED
      rwa [statusAt_setTask_ne _ _ _ hc]
  | opDelete task_id =>
    simp only [MutOp.argTask] at hc
    simp only [MutOp.apply]
    unfold delete
    by_cases hdel : (lookupTask s.tasks task_id).isSome
    · rw [if_pos hdel]
      show statusAt (s.tasks.filter (fun p => ! decide (p.1 = task_id))) c = some .BLOCKED
      unfold statusAt
      rw [lookupTask_filter_ne _ _ _ hc]
      exact hb
    · rw [if_neg hdel]
      exact hb
  | opStart task_id agent now =>
    simp only [MutOp.argTask] at hc
    simp only [MutOp.apply]
    unfold start
    cases hl : lookupTask s.tasks task_id with
    | none => simp only [hl]; exact hb
    | some t =>
      simp only [hl]
      by_cases hbl : t.status = .BLOCKED
      · rw [if_pos hbl]
        exact hb
      · rw [if_neg hbl]
        show statusAt (setTask s.tasks task_id _) c = some .BLOCKED
        rwa [statusAt_setTask_ne _ _ _ hc]
  | opFail task_id reason now =>
    simp only [MutOp.argTask] at hc
    simp only [MutOp.apply]
    unfold fail
    cases hl : lookupTask s.tasks task_id with
    | none => simp only [hl]; exact hb
    | some t =>
      simp only [hl]
      show statusAt (setTask s.tasks task_id _) c = some .BLOCKED
      rwa [statusAt_setTask_ne _ _ _ hc]
  | opCancel task_id reason =>
    simp only [MutOp.argTask] at hc
    simp only [MutOp.apply]
    unfold cancel
    cases hl : lookupTask s.tasks task_id with
    | none => simp only [hl]; exact hb
    | some t =>
      simp only [hl]
      show statusAt (setTask s.tasks task_id _) c = some .BLOCKED
      rwa [statusAt_setTask_ne _ _ _ hc]
  | opAddDependency task_id depends_on =>
    simp only [MutOp.argTask] at hc
    simp only [MutOp.apply]
    unfold add_dependency
    cases hl : lookupTask s.tasks task_id with
    | none => simp only [hl]; exact hb
    | some t =>
      simp only [hl]
      by_cases h2 : (lookupTask s.tasks depends_on).isNone
      · rw [if_pos h2]
        exact hb
      · rw [if_neg h2]
        by_cases h3 : would_create_cycle s.tasks task_id depends_on = true
        · rw [if_pos h3]
          exact hb
        · rw [if_neg h3]
          show statusAt (update_blocked_status (setTask s.tasks task_id
            (if depends_on ∉ t.dependencies then
              {t with dependencies := t.dependencies ++ [depends_on]}
            else t))) c = some .BLOCKED
          refine blocked_stays_after_set_recompute s.tasks hnd hwb task_id t _ hl ?_ c hc hb
          by_cases hd : depends_on ∉ t.dependencies <;> simp [hd]
  | opRemoveDependency task_id depends_on =>
    simp only [MutOp.argTask] at hc
    simp only [MutOp.apply]
    unfold remove_dependency
    cases hl : lookupTask s.tasks task_id with
    | none => simp only [hl]; exact hb
    | some t =>
      simp only [hl]
      show statusAt (update_blocked_status (setTask s.tasks task_id
        (if depends_on ∈ t.dependencies then
          {t with dependencies := t.dependencies.erase depends_on}
        else t))) c = some .BLOCKED
      refine blocked_stays_after_set_recompute s.tasks hnd hwb task_id t _ hl ?_ c hc hb
      by_cases hd : depends_on ∈ t.dependencies <;> simp [hd]

/-- C3 counterexample: from a loadable store state in which task a sits
BLOCKED with an empty dependency list, the non-complete mutation
`remove_dependency("b", "z")` flips task a — not its argument — from
BLOCKED to PENDING via its recompute pass, refuting the claim as stated. -/
theorem claim_C3_counterexample :
    (MutOp.opRemoveDependency "b" "z").isCompleteOp = false ∧
    ("a" : String) ≠ "b" ∧
    statusAt sampleState3.tasks "a" = some .BLOCKED ∧
    statusAt ((MutOp.opRemoveDependency "b" "z").apply sampleState3).tasks "a" =
      some .PENDING := by
  refine ⟨rfl, by decide, rfl, ?_⟩
  rfl

/-- C3 witness: in a concrete well-blocked three-task store, removing a
dependency of task c leaves the unrelated BLOCKED task a BLOCKED. -/
theorem claim_C3_witness :
    (MutOp.opRemoveDependency "c" "z").isCompleteOp = false ∧
    NodupKeys sampleState3w.tasks ∧ WellBlocked sampleState3w.tasks ∧
    ("a" : String) ≠ "c" ∧
    statusAt sampleState3w.tasks "a" = some .BLOCKED ∧
    statusAt ((MutOp.opRemoveDependency "c" "z").apply sampleState3w).tasks "a" =
      some .BLOCKED :=
  ⟨rfl, by decide, by decide, by decide, rfl,
    claim_C3_amended (MutOp.opRemoveDependency "c" "z") rfl sampleState3w
      (by decide) (by decide) "a" (by decide) rfl⟩
